import Mathlib

/-!
Shallow embedding of the instruction-decomposition core of the Jolt fork under
verification: the `GradientBoostSubtable` (subtable/gradient_boost.rs), the
`GradientBoostInstruction` (instruction/gradient_boost.rs), the `GBDTInstruction`
virtual sequence (instruction/gbdt.rs) and the `RV32ISubtables` catalog
(vm/rv32i_vm.rs).  Machine integers are modelled as `Nat` (`x as u8` becomes
`x % 256`, `a | b` becomes `a ||| b`, `a << k` becomes `a <<< k`); the generic
field `F: JoltField` is modelled as an arbitrary commutative ring with decidable
equality (the source only uses `is_zero`, `one`, `from_u64`, `+`, `-`, `*`);
Rust panics (`unwrap`, `assert_eq!`, the catalog `panic!`) are modelled as
`Option.none`.
-/

/-- Threshold constant `T1 = 50` (declared identically in
subtable/gradient_boost.rs, instruction/gradient_boost.rs and gbdt.rs). -/
def T1 : ℕ := 50

/-- Threshold constant `T2 = 30`. -/
def T2 : ℕ := 30

/-- Threshold constant `T3 = 70`. -/
def T3 : ℕ := 70

/-- Leaf value `V1 = 10`. -/
def V1 : ℕ := 10

/-- Leaf value `V2 = 20`. -/
def V2 : ℕ := 20

/-- Leaf value `V3 = 30`. -/
def V3 : ℕ := 30

/-- Leaf value `V4 = 40`. -/
def V4 : ℕ := 40

/-- The 3-threshold decision tree `inference`, written out identically (same
body, same constants) in `GradientBoostSubtable::inference` (over `u8`),
`GradientBoostInstruction::inference` (over `u8`) and `GBDTInstruction::inference`
(over `u64`).  The `u8` callers pass arguments already reduced mod 256. -/
def inference (left right : ℕ) : ℕ :=
  if left < T1 then
    if right < T2 then V1 else V2
  else
    if right < T3 then V3 else V4

/-- Modelled from the spec: `split_bits` (crate::utils, source not under src/)
"splits the packed index into two equal-width sub-fields (left, right) via
bit-splitting": it returns `(high, low)` where `low = item & (2^bits - 1)` and
`high = (item >> bits) & (2^bits - 1)`, written arithmetically as
`(item / 2^bits % 2^bits, item % 2^bits)`.  The high-first order is pinned down
by the spec's materialize cross-check (entries[25670] = inference(100, 70)). -/
def split_bits (item bits : ℕ) : ℕ × ℕ :=
  (item / 2 ^ bits % 2 ^ bits, item % 2 ^ bits)

/-- `GradientBoostSubtable::materialize`: for each `idx` in `[0, M)`, split the
index into two `log2(M)/2`-bit halves and apply the decision tree.  The `as u8`
casts at the call of `inference` are the `% 256` here; `ark_std::log2` agrees
with `Nat.log2` on the powers of two for which the subtable is instantiated. -/
def GradientBoostSubtable.materialize (M : ℕ) : List ℕ :=
  let bits_per_operand := Nat.log2 M / 2
  (List.range M).map (fun idx =>
    let lr := split_bits idx bits_per_operand
    inference (lr.1 % 256) (lr.2 % 256))

/-- The binary-index accumulation loop of `GradientBoostSubtable::evaluate_mle`:
scanning `point` from its last coordinate to its first with doubling bit
weights, a coordinate contributes its weight exactly when it `is_zero()` is
false, so `point[0]` is the most significant bit. -/
def binaryIndex {F : Type} [Zero F] [DecidableEq F] : List F → ℕ
  | [] => 0
  | c :: rest => (if c = 0 then 0 else 1) * 2 ^ rest.length + binaryIndex rest

/-- `GradientBoostSubtable::evaluate_mle`: convert the point to a binary index
(most-significant coordinate first, a coordinate counting as the bit 1 exactly
when it is nonzero), split it with `bits_per_operand = point.len() / 2`, run
the decision tree, and encode the result into the field. -/
def GradientBoostSubtable.evaluate_mle {F : Type} [CommRing F] [DecidableEq F]
    (point : List F) : F :=
  let binary_index := binaryIndex point
  let bits_per_operand := point.length / 2
  let lr := split_bits binary_index bits_per_operand
  ((inference (lr.1 % 256) (lr.2 % 256) : ℕ) : F)

/-- Canonical boolean encoding of an index: length-`n` vector of `0`/`1` field
elements, most-significant coordinate first (the convention fixed by the spec's
data model for MLE evaluation points). -/
def boolPoint (F : Type) [Zero F] [One F] (n i : ℕ) : List F :=
  (List.range n).map (fun j => if Nat.testBit i (n - 1 - j) then 1 else 0)

/-- Modelled from the spec: `LtuSubtable` (jolt/subtable/ltu.rs, source not
under src/), the "reusable general-purpose less-than subtable".  Per the spec
the three lookups of the gradient-boost instruction serve the relations
`left < T1`, `right < T2`, `right < T3`, and `to_indices` (in src/) packs the
operand into the low byte and the threshold into the high byte of each index,
so the entry at a packed index is 1 exactly when the low sub-field is less than
the high sub-field. -/
def LtuSubtable.materialize (M : ℕ) : List ℕ :=
  let bits_per_operand := Nat.log2 M / 2
  (List.range M).map (fun idx =>
    let lr := split_bits idx bits_per_operand
    if lr.2 < lr.1 then 1 else 0)

/-- `GradientBoostInstruction::combine_lookups`.  The instruction declares
three subtables, each bound to a single chunk slot (all of them to slot 0 —
see `GradientBoostInstruction.subtables`), so `slice_values` groups `vals` as
`[[vals[0]], [vals[1]], [vals[2]]]`; the parameters `C` and `M` are consumed
only by that grouping.  The leaf constants enter via `F::from_u64`. -/
def GradientBoostInstruction.combine_lookups {F : Type} [CommRing F]
    (vals : List F) (C M : ℕ) : F :=
  let left_lt_t1 := vals.getD 0 0
  let right_lt_t2 := vals.getD 1 0
  let right_lt_t3 := vals.getD 2 0
  left_lt_t1 * right_lt_t2 * (V1 : F)
    + left_lt_t1 * (1 - right_lt_t2) * (V2 : F)
    + (1 - left_lt_t1) * right_lt_t3 * (V3 : F)
    + (1 - left_lt_t1) * (1 - right_lt_t3) * (V4 : F)

/-- `GradientBoostInstruction::g_poly_degree`: returns 3 for every `C`. -/
def GradientBoostInstruction.g_poly_degree (C : ℕ) : ℕ := 3

/-- `GradientBoostInstruction::to_indices`: mask both operands to 8 bits, pack
each against its threshold (operand in the low byte, threshold shifted into the
high byte), then `resize(C, 0)`: truncate to `C` entries when `C < 3`, pad with
zeros when `C > 3`.  The `log_M` parameter is not read by the body. -/
def GradientBoostInstruction.to_indices (x y : ℕ) (C log_M : ℕ) : List ℕ :=
  let left := x % 256
  let right := y % 256
  let left_lt_t1_idx := left ||| (T1 <<< 8)
  let right_lt_t2_idx := right ||| (T2 <<< 8)
  let right_lt_t3_idx := right ||| (T3 <<< 8)
  ([left_lt_t1_idx, right_lt_t2_idx, right_lt_t3_idx].take C)
    ++ List.replicate (C - 3) 0

/-- `GradientBoostInstruction::lookup_entry`: mask both operands to 8 bits and
run the decision tree. -/
def GradientBoostInstruction.lookup_entry (x y : ℕ) : ℕ :=
  inference (x % 256) (y % 256)

/-- The lookup values with the three LTU subtables bound to slots 0, 1 and 2
respectively: the slot-corrected binding, stated for comparison with the
binding the source actually declares (`GradientBoostInstruction.subtables`
below, which binds every subtable to slot 0).  `M = 2^16` (`log_M = 16`) is
the VM configuration fixed in vm/rv32i_vm.rs. -/
def GradientBoostInstruction.subtable_values_slot_corrected (x y C : ℕ) : List ℕ :=
  ((GradientBoostInstruction.to_indices x y C 16).take 3).map
    (fun i => (LtuSubtable.materialize (2 ^ 16)).getD i 0)

open MvPolynomial in
/-- `combine_lookups` read as a polynomial in its three subtable-value inputs
(variables `X 0 = left_lt_t1`, `X 1 = right_lt_t2`, `X 2 = right_lt_t3`), with
integer coefficients.  (This abstraction exists only to state the degree claim;
it is not itself program code, hence noncomputable.) -/
noncomputable def GradientBoostInstruction.combineMv : MvPolynomial (Fin 3) ℤ :=
  X 0 * X 1 * C (V1 : ℤ) + X 0 * (1 - X 1) * C (V2 : ℤ)
    + (1 - X 0) * X 2 * C (V3 : ℤ) + (1 - X 0) * (1 - X 2) * C (V4 : ℤ)

/-- Opcode tags appearing in the gbdt.rs virtual sequence (tracer crate, rows
constructed in src/jolt-core/src/jolt/instruction/gbdt.rs). -/
inductive RV32IM where
  | GBDT
  | VIRTUAL_ADVICE
  | VIRTUAL_MOVE
  | VIRTUAL_ASSERT_LTE
deriving DecidableEq

/-- `ELFInstruction` fields as constructed in gbdt.rs (tracer crate; the field
list is exactly the one the source populates). -/
structure ELFInstruction where
  address : ℕ
  opcode : RV32IM
  rs1 : Option ℕ
  rs2 : Option ℕ
  rd : Option ℕ
  imm : Option ℤ
  virtual_sequence_remaining : Option ℕ
deriving DecidableEq

/-- `RegisterState` as constructed in gbdt.rs. -/
structure RegisterState where
  rs1_val : Option ℕ
  rs2_val : Option ℕ
  rd_post_val : Option ℕ
deriving DecidableEq

/-- `RVTraceRow` as constructed in gbdt.rs (memory and precompile payloads are
never populated by this sequence, so their value types are irrelevant). -/
structure RVTraceRow where
  instruction : ELFInstruction
  register_state : RegisterState
  memory_state : Option Unit
  advice_value : Option ℕ
  precompile_input : Option ℕ
  precompile_output_address : Option ℕ
deriving DecidableEq

/-- Modelled from the spec: `virtual_register_index` (common crate, source not
under src/) maps a scratch-register ordinal to a register identifier disjoint
from the 32 architectural registers. -/
def virtual_register_index (i : ℕ) : ℕ := 32 + i

/-- Modelled from the spec: `ADVICEInstruction::lookup_entry` (source not under
src/); step 1 of the sequence "records the oracle result into a scratch
register as an out-of-band advice value", so the lookup entry is the advice
value itself. -/
def ADVICEInstruction.lookup_entry (v : ℕ) : ℕ := v

/-- Modelled from the spec: `ASSERTLTEInstruction::lookup_entry` (source not
under src/) decides the less-than-or-equal relation; gbdt.rs itself pins the
value down with `assert_eq!(lte1, !(x > T1) as u64)`. -/
def ASSERTLTEInstruction.lookup_entry (x y : ℕ) : ℕ := if x ≤ y then 1 else 0

/-- `GBDTInstruction::SEQUENCE_LENGTH = 2`. -/
def GBDTInstruction.SEQUENCE_LENGTH : ℕ := 2

/-- `GBDTInstruction::virtual_trace`.  The two `unwrap()` calls on the operand
registers and the three host-side `assert_eq!` checks are modelled as `none` on
failure.  Exactly two rows are pushed: the `VIRTUAL_ADVICE` row (remaining
counter `SEQUENCE_LENGTH - 0 - 1`) and the `VIRTUAL_MOVE` row (remaining
counter `SEQUENCE_LENGTH - 1 - 1`); the `ASSERT_LTE` comparisons are computed
between the two pushes but no row is pushed for them. -/
def GBDTInstruction.virtual_trace (trace_row : RVTraceRow) :
    Option (List RVTraceRow) :=
  match trace_row.register_state.rs1_val, trace_row.register_state.rs2_val with
  | some x, some y =>
      let inf := inference x y
      let i := ADVICEInstruction.lookup_entry inf
      let row1 : RVTraceRow :=
        { instruction :=
            { address := trace_row.instruction.address
              opcode := RV32IM.VIRTUAL_ADVICE
              rs1 := none
              rs2 := none
              rd := some (virtual_register_index 0)
              imm := none
              virtual_sequence_remaining :=
                some (GBDTInstruction.SEQUENCE_LENGTH - 0 - 1) }
          register_state :=
            { rs1_val := none, rs2_val := none, rd_post_val := some i }
          memory_state := none
          advice_value := some inf
          precompile_input := none
          precompile_output_address := none }
      if ASSERTLTEInstruction.lookup_entry x T1 = (if T1 < x then 0 else 1) then
        if ASSERTLTEInstruction.lookup_entry y T2 = (if T2 < y then 0 else 1) then
          if ASSERTLTEInstruction.lookup_entry y T3 = (if T3 < y then 0 else 1) then
            let row2 : RVTraceRow :=
              { instruction :=
                  { address := trace_row.instruction.address
                    opcode := RV32IM.VIRTUAL_MOVE
                    rs1 := some (virtual_register_index 0)
                    rs2 := none
                    rd := trace_row.instruction.rd
                    imm := none
                    virtual_sequence_remaining :=
                      some (GBDTInstruction.SEQUENCE_LENGTH - 1 - 1) }
                register_state :=
                  { rs1_val := some i, rs2_val := none, rd_post_val := some i }
                memory_state := none
                advice_value := none
                precompile_input := none
                precompile_output_address := none }
            some [row1, row2]
          else none
        else none
      else none
  | _, _ => none

/-- `GBDTInstruction::sequence_output`: the decision tree applied to the raw
(unmasked) operands. -/
def GBDTInstruction.sequence_output (x y : ℕ) : ℕ := inference x y

/-- Subtable type identities (`TypeId`s) of the concrete subtable types present
in the repository: the 26 members of the `RV32ISubtables` catalog plus
`GradientBoostSubtable`, which is defined in the repository but not registered
in the catalog. -/
inductive SubtableId where
  | AndSubtable
  | EqAbsSubtable
  | EqSubtable
  | LeftMSBSubtable
  | RightMSBSubtable
  | IdentitySubtable
  | LtAbsSubtable
  | LtuSubtable
  | OrSubtable
  | SignExtendSubtable16
  | SllSubtable0
  | SllSubtable1
  | SllSubtable2
  | SllSubtable3
  | SraSignSubtable
  | SrlSubtable0
  | SrlSubtable1
  | SrlSubtable2
  | SrlSubtable3
  | TruncateOverflowSubtable
  | XorSubtable
  | LeftIsZeroSubtable
  | RightIsZeroSubtable
  | DivByZeroSubtable
  | LowBitSubtable0
  | LowBitSubtable1
  | GradientBoostSubtable
deriving DecidableEq, Fintype

/-- The `RV32ISubtables` catalog enum generated by `subtable_enum!` in
vm/rv32i_vm.rs, one variant per registered subtable, in declaration order. -/
inductive RV32ISubtables where
  | AND
  | EQ_ABS
  | EQ
  | LEFT_MSB
  | RIGHT_MSB
  | IDENTITY
  | LT_ABS
  | LTU
  | OR
  | SIGN_EXTEND_16
  | SLL0
  | SLL1
  | SLL2
  | SLL3
  | SRA_SIGN
  | SRL0
  | SRL1
  | SRL2
  | SRL3
  | TRUNCATE
  | XOR
  | LEFT_IS_ZERO
  | RIGHT_IS_ZERO
  | DIV_BY_ZERO
  | LSB
  | SECOND_LEAST_SIGNIFICANT_BIT
deriving DecidableEq, Fintype

/-- The subtable type identity registered for each catalog variant (the
`$struct` of each `$alias: $struct` line of the `subtable_enum!` invocation). -/
def RV32ISubtables.subtable_id : RV32ISubtables → SubtableId
  | .AND => .AndSubtable
  | .EQ_ABS => .EqAbsSubtable
  | .EQ => .EqSubtable
  | .LEFT_MSB => .LeftMSBSubtable
  | .RIGHT_MSB => .RightMSBSubtable
  | .IDENTITY => .IdentitySubtable
  | .LT_ABS => .LtAbsSubtable
  | .LTU => .LtuSubtable
  | .OR => .OrSubtable
  | .SIGN_EXTEND_16 => .SignExtendSubtable16
  | .SLL0 => .SllSubtable0
  | .SLL1 => .SllSubtable1
  | .SLL2 => .SllSubtable2
  | .SLL3 => .SllSubtable3
  | .SRA_SIGN => .SraSignSubtable
  | .SRL0 => .SrlSubtable0
  | .SRL1 => .SrlSubtable1
  | .SRL2 => .SrlSubtable2
  | .SRL3 => .SrlSubtable3
  | .TRUNCATE => .TruncateOverflowSubtable
  | .XOR => .XorSubtable
  | .LEFT_IS_ZERO => .LeftIsZeroSubtable
  | .RIGHT_IS_ZERO => .RightIsZeroSubtable
  | .DIV_BY_ZERO => .DivByZeroSubtable
  | .LSB => .LowBitSubtable0
  | .SECOND_LEAST_SIGNIFICANT_BIT => .LowBitSubtable1

/-- `From<SubtableId> for RV32ISubtables` as expanded by `subtable_enum!`: a
chain of `TypeId` equality tests in catalog order, falling through to
`panic!("Unexpected subtable id")` — modelled as `none` — when no registered
identity matches. -/
def RV32ISubtables.fromSubtableId (id : SubtableId) : Option RV32ISubtables :=
  if id = SubtableId.AndSubtable then some .AND
  else if id = SubtableId.EqAbsSubtable then some .EQ_ABS
  else if id = SubtableId.EqSubtable then some .EQ
  else if id = SubtableId.LeftMSBSubtable then some .LEFT_MSB
  else if id = SubtableId.RightMSBSubtable then some .RIGHT_MSB
  else if id = SubtableId.IdentitySubtable then some .IDENTITY
  else if id = SubtableId.LtAbsSubtable then some .LT_ABS
  else if id = SubtableId.LtuSubtable then some .LTU
  else if id = SubtableId.OrSubtable then some .OR
  else if id = SubtableId.SignExtendSubtable16 then some .SIGN_EXTEND_16
  else if id = SubtableId.SllSubtable0 then some .SLL0
  else if id = SubtableId.SllSubtable1 then some .SLL1
  else if id = SubtableId.SllSubtable2 then some .SLL2
  else if id = SubtableId.SllSubtable3 then some .SLL3
  else if id = SubtableId.SraSignSubtable then some .SRA_SIGN
  else if id = SubtableId.SrlSubtable0 then some .SRL0
  else if id = SubtableId.SrlSubtable1 then some .SRL1
  else if id = SubtableId.SrlSubtable2 then some .SRL2
  else if id = SubtableId.SrlSubtable3 then some .SRL3
  else if id = SubtableId.TruncateOverflowSubtable then some .TRUNCATE
  else if id = SubtableId.XorSubtable then some .XOR
  else if id = SubtableId.LeftIsZeroSubtable then some .LEFT_IS_ZERO
  else if id = SubtableId.RightIsZeroSubtable then some .RIGHT_IS_ZERO
  else if id = SubtableId.DivByZeroSubtable then some .DIV_BY_ZERO
  else if id = SubtableId.LowBitSubtable0 then some .LSB
  else if id = SubtableId.LowBitSubtable1 then some .SECOND_LEAST_SIGNIFICANT_BIT
  else none

/-- `GradientBoostInstruction::subtables`: the declared (subtable, slot
binding) list — three `LtuSubtable`s, each bound to `SubtableIndices::from(0)`,
i.e. to the slot set `{0}` (gradient_boost.rs, `subtables`).  Neither `C` nor
`M` is read by the body. -/
def GradientBoostInstruction.subtables (C M : ℕ) : List (SubtableId × List ℕ) :=
  [(SubtableId.LtuSubtable, [0]), (SubtableId.LtuSubtable, [0]),
    (SubtableId.LtuSubtable, [0])]

/-- The values fed to `combine_lookups` under the slot bindings DECLARED by
`subtables()`, as the surrounding lookup plumbing (`jolt_instruction_test!`,
`slice_values`) computes them: for each declared (subtable, slots) pair in
order and each bound slot `i`, the subtable — every declared subtable here is
the LTU subtable — is materialized at the VM configuration `M = 2^16` and read
at index `to_indices[i]`.  Since every declared binding is the slot set `{0}`,
all three values read `to_indices[0]`. -/
def GradientBoostInstruction.subtable_values_at (x y C : ℕ) : List ℕ :=
  (GradientBoostInstruction.subtables C (2 ^ 16)).flatMap (fun st =>
    st.2.map (fun i =>
      (LtuSubtable.materialize (2 ^ 16)).getD
        ((GradientBoostInstruction.to_indices x y C 16).getD i 0) 0))

/-! ### Helper lemmas -/

theorem getD_range_map {α : Type} (f : ℕ → α) {M i : ℕ} (d : α) (h : i < M) :
    ((List.range M).map f).getD i d = f i := by
  simp [List.getD_eq_getElem?_getD, List.getElem?_map, List.getElem?_range h]

theorem log2_two_pow (n : ℕ) : Nat.log2 (2 ^ n) = n := by
  rw [Nat.log2_eq_log_two, Nat.log_pow (by norm_num)]

theorem gradient_boost_materialize_getD (n i : ℕ) (h : i < 2 ^ n) :
    (GradientBoostSubtable.materialize (2 ^ n)).getD i 0 =
      inference (i / 2 ^ (n / 2) % 2 ^ (n / 2) % 256) (i % 2 ^ (n / 2) % 256) := by
  simp only [GradientBoostSubtable.materialize, split_bits, log2_two_pow]
  exact getD_range_map _ _ h

theorem ltu_materialize_getD (n i : ℕ) (h : i < 2 ^ n) :
    (LtuSubtable.materialize (2 ^ n)).getD i 0 =
      if i % 2 ^ (n / 2) < i / 2 ^ (n / 2) % 2 ^ (n / 2) then 1 else 0 := by
  simp only [LtuSubtable.materialize, split_bits, log2_two_pow]
  exact getD_range_map _ _ h

theorem assert_lte_guard (a t : ℕ) :
    ASSERTLTEInstruction.lookup_entry a t = (if t < a then 0 else 1) := by
  unfold ASSERTLTEInstruction.lookup_entry
  split_ifs <;> omega

theorem virtual_trace_char (tr : RVTraceRow) (x y : ℕ)
    (hx : tr.register_state.rs1_val = some x)
    (hy : tr.register_state.rs2_val = some y) :
    ∃ r1 r2, GBDTInstruction.virtual_trace tr = some [r1, r2] ∧
      r1.instruction.opcode = RV32IM.VIRTUAL_ADVICE ∧
      r1.instruction.virtual_sequence_remaining = some 1 ∧
      r1.register_state.rd_post_val = some (inference x y) ∧
      r1.advice_value = some (inference x y) ∧
      r2.instruction.opcode = RV32IM.VIRTUAL_MOVE ∧
      r2.instruction.virtual_sequence_remaining = some 0 ∧
      r2.register_state.rs1_val = some (inference x y) ∧
      r2.register_state.rd_post_val = some (inference x y) := by
  simp only [GBDTInstruction.virtual_trace, hx, hy, assert_lte_guard,
    eq_self_iff_true, if_true]
  exact ⟨_, _, rfl, rfl, rfl, rfl, rfl, rfl, rfl, rfl, rfl⟩

/-! ### Claim theorems -/

/-- C9: `GradientBoostSubtable::materialize(65536)` has exactly 65536 entries
and, with `bits_per_operand = 8`, takes the values 10, 10, 20, 10, 30, 30, 40,
40 at the indices 0, 1, 31, 256, 12800, 25600, 25670, 25671. -/
theorem materialize_cross_check :
    (GradientBoostSubtable.materialize 65536).length = 65536 ∧
    (GradientBoostSubtable.materialize 65536).getD 0 0 = 10 ∧
    (GradientBoostSubtable.materialize 65536).getD 1 0 = 10 ∧
    (GradientBoostSubtable.materialize 65536).getD 31 0 = 20 ∧
    (GradientBoostSubtable.materialize 65536).getD 256 0 = 10 ∧
    (GradientBoostSubtable.materialize 65536).getD 12800 0 = 30 ∧
    (GradientBoostSubtable.materialize 65536).getD 25600 0 = 30 ∧
    (GradientBoostSubtable.materialize 65536).getD 25670 0 = 40 ∧
    (GradientBoostSubtable.materialize 65536).getD 25671 0 = 40 := by
  have h : (65536 : ℕ) = 2 ^ 16 := by norm_num
  rw [h]
  refine ⟨by simp [GradientBoostSubtable.materialize], ?_, ?_, ?_, ?_, ?_, ?_, ?_, ?_⟩ <;>
    rw [gradient_boost_materialize_getD 16 _ (by norm_num)] <;> decide

/-- C10: every subtable identity registered in the `RV32ISubtables` catalog
converts to its catalog variant, and conversion of the one repository subtable
identity absent from the catalog (`GradientBoostSubtable`) hits the
`panic!` arm, modelled as `none`: there is no recovering return path. -/
theorem subtable_catalog_conversion :
    (∀ v : RV32ISubtables, RV32ISubtables.fromSubtableId v.subtable_id = some v) ∧
    (∀ id : SubtableId, (RV32ISubtables.fromSubtableId id).isSome ↔
      id ≠ SubtableId.GradientBoostSubtable) := by
  constructor
  · intro v; cases v <;> rfl
  · intro id; cases id <;> simp [RV32ISubtables.fromSubtableId]

/-- C2 (failing evaluation): on a concrete input trace row the virtual sequence
emitted by `GBDTInstruction::virtual_trace` consists of exactly the advice step
and the move step — the opcode list is `[VIRTUAL_ADVICE, VIRTUAL_MOVE]` — so no
binding-assertion step appears between them; the three less-than comparisons
exist only as host-side checks. -/
theorem gbdt_no_assert_rows :
    (GBDTInstruction.virtual_trace
      { instruction :=
          { address := 0, opcode := RV32IM.GBDT, rs1 := some 1, rs2 := some 2,
            rd := some 3, imm := none, virtual_sequence_remaining := none }
        register_state :=
          { rs1_val := some 0, rs2_val := some 0, rd_post_val := none }
        memory_state := none, advice_value := none, precompile_input := none,
        precompile_output_address := none }).map
        (List.map (fun r => r.instruction.opcode)) =
      some [RV32IM.VIRTUAL_ADVICE, RV32IM.VIRTUAL_MOVE] ∧
    GBDTInstruction.SEQUENCE_LENGTH = 2 :=
  ⟨rfl, rfl⟩

/-- C8: whenever `virtual_trace` produces a sequence, it has exactly
`SEQUENCE_LENGTH` rows, the k-th row carries
`virtual_sequence_remaining = SEQUENCE_LENGTH - k - 1` (so the counter drops by
exactly 1 per step), and the counter is 0 exactly at the final row. -/
theorem virtual_trace_counter (tr : RVTraceRow) (out : List RVTraceRow)
    (h : GBDTInstruction.virtual_trace tr = some out) :
    out.length = GBDTInstruction.SEQUENCE_LENGTH ∧
    ∀ k (hk : k < out.length),
      (out.get ⟨k, hk⟩).instruction.virtual_sequence_remaining =
        some (GBDTInstruction.SEQUENCE_LENGTH - k - 1) ∧
      ((out.get ⟨k, hk⟩).instruction.virtual_sequence_remaining = some 0 ↔
        k = out.length - 1) := by
  cases hx : tr.register_state.rs1_val with
  | none => simp [GBDTInstruction.virtual_trace, hx] at h
  | some x =>
    cases hy : tr.register_state.rs2_val with
    | none => simp [GBDTInstruction.virtual_trace, hx, hy] at h
    | some y =>
      obtain ⟨r1, r2, heq, _, hv1, _, _, _, hv2, _, _⟩ :=
        virtual_trace_char tr x y hx hy
      rw [heq] at h
      cases h
      refine ⟨rfl, ?_⟩
      intro k hk
      have hk2 : k < 2 := hk
      interval_cases k <;>
        simp [hv1, hv2, GBDTInstruction.SEQUENCE_LENGTH]

/-- C8 witness: a concrete trace row on which the counter theorem applies. -/
theorem virtual_trace_counter_witness :
    ∃ out, GBDTInstruction.virtual_trace
      { instruction :=
          { address := 4, opcode := RV32IM.GBDT, rs1 := some 5, rs2 := some 6,
            rd := some 7, imm := none, virtual_sequence_remaining := none }
        register_state :=
          { rs1_val := some 5, rs2_val := some 7, rd_post_val := none }
        memory_state := none, advice_value := none, precompile_input := none,
        precompile_output_address := none } = some out ∧
      out.length = GBDTInstruction.SEQUENCE_LENGTH := by
  have h : GBDTInstruction.virtual_trace
      { instruction :=
          { address := 4, opcode := RV32IM.GBDT, rs1 := some 5, rs2 := some 6,
            rd := some 7, imm := none, virtual_sequence_remaining := none }
        register_state :=
          { rs1_val := some 5, rs2_val := some 7, rd_post_val := none }
        memory_state := none, advice_value := none, precompile_input := none,
        precompile_output_address := none } =
      some ((GBDTInstruction.virtual_trace
        { instruction :=
            { address := 4, opcode := RV32IM.GBDT, rs1 := some 5, rs2 := some 6,
              rd := some 7, imm := none, virtual_sequence_remaining := none }
          register_state :=
            { rs1_val := some 5, rs2_val := some 7, rd_post_val := none }
          memory_state := none, advice_value := none, precompile_input := none,
          precompile_output_address := none }).getD []) := rfl
  exact ⟨_, h, (virtual_trace_counter _ _ h).1⟩

/-- C3 counterexample: at the operand pair (256, 0) the virtual sequence's
`sequence_output` is 30 while the non-virtual instruction's `lookup_entry` is
10, because `sequence_output` feeds the raw 64-bit operands to the decision
tree whereas `lookup_entry` first masks them to 8 bits. -/
theorem sequence_output_ne_lookup_entry :
    GBDTInstruction.sequence_output 256 0 = 30 ∧
    GradientBoostInstruction.lookup_entry 256 0 = 10 ∧
    GBDTInstruction.sequence_output 256 0 ≠
      GradientBoostInstruction.lookup_entry 256 0 := by
  refine ⟨by decide, by decide, by decide⟩

/-- C3 (amended): for 8-bit operands x, y < 256 carried by the trace row, the
expansion succeeds, the final row's destination value equals
`sequence_output(x, y)`, and `sequence_output(x, y)` equals the non-virtual
`GradientBoostInstruction(x, y).lookup_entry()`. -/
theorem gbdt_sequence_equivalence (tr : RVTraceRow) (x y : ℕ)
    (hx : tr.register_state.rs1_val = some x)
    (hy : tr.register_state.rs2_val = some y)
    (hx8 : x < 256) (hy8 : y < 256) :
    ∃ out, GBDTInstruction.virtual_trace tr = some out ∧
      (out.getLast?).map (fun r => r.register_state.rd_post_val) =
        some (some (GBDTInstruction.sequence_output x y)) ∧
      GBDTInstruction.sequence_output x y =
        GradientBoostInstruction.lookup_entry x y := by
  obtain ⟨r1, r2, heq, _, _, _, _, _, _, _, hpost⟩ :=
    virtual_trace_char tr x y hx hy
  refine ⟨[r1, r2], heq, ?_, ?_⟩
  · rw [show ([r1, r2].getLast?) = some r2 from rfl]
    simp [hpost, GBDTInstruction.sequence_output]
  · unfold GBDTInstruction.sequence_output GradientBoostInstruction.lookup_entry
    rw [Nat.mod_eq_of_lt hx8, Nat.mod_eq_of_lt hy8]

/-- C3 witness: the amended equivalence instantiated on a concrete row with
operands (60, 20). -/
theorem gbdt_sequence_equivalence_witness :
    ∃ out, GBDTInstruction.virtual_trace
      { instruction :=
          { address := 8, opcode := RV32IM.GBDT, rs1 := some 1, rs2 := some 2,
            rd := some 3, imm := none, virtual_sequence_remaining := none }
        register_state :=
          { rs1_val := some 60, rs2_val := some 20, rd_post_val := none }
        memory_state := none, advice_value := none, precompile_input := none,
        precompile_output_address := none } = some out ∧
      (out.getLast?).map (fun r => r.register_state.rd_post_val) =
        some (some (GBDTInstruction.sequence_output 60 20)) ∧
      GBDTInstruction.sequence_output 60 20 =
        GradientBoostInstruction.lookup_entry 60 20 :=
  gbdt_sequence_equivalence _ 60 20 rfl rfl (by norm_num) (by norm_num)

set_option maxRecDepth 4000 in
theorem byte_pack_facts :
    ∀ l, l < 256 →
      ((l ||| (T1 <<< 8)) < 2 ^ 16 ∧ (l ||| (T1 <<< 8)) % 256 = l ∧
        (l ||| (T1 <<< 8)) / 256 % 256 = T1) ∧
      ((l ||| (T2 <<< 8)) < 2 ^ 16 ∧ (l ||| (T2 <<< 8)) % 256 = l ∧
        (l ||| (T2 <<< 8)) / 256 % 256 = T2) ∧
      ((l ||| (T3 <<< 8)) < 2 ^ 16 ∧ (l ||| (T3 <<< 8)) % 256 = l ∧
        (l ||| (T3 <<< 8)) / 256 % 256 = T3) := by decide

theorem to_indices_take_three (x y C : ℕ) (hC : 3 ≤ C) :
    (GradientBoostInstruction.to_indices x y C 16).take 3 =
      [x % 256 ||| (T1 <<< 8), y % 256 ||| (T2 <<< 8), y % 256 ||| (T3 <<< 8)] := by
  obtain ⟨k, rfl⟩ := Nat.exists_eq_add_of_le hC
  simp only [GradientBoostInstruction.to_indices]
  rw [show List.take (3 + k)
        [x % 256 ||| (T1 <<< 8), y % 256 ||| (T2 <<< 8), y % 256 ||| (T3 <<< 8)] =
      [x % 256 ||| (T1 <<< 8), y % 256 ||| (T2 <<< 8), y % 256 ||| (T3 <<< 8)] from
    List.take_of_length_le (by simp)]
  rw [List.take_append_eq_append_take]
  simp

theorem ltu_entry_65536 (i : ℕ) (h : i < 2 ^ 16) :
    (LtuSubtable.materialize (2 ^ 16)).getD i 0 =
      if i % 256 < i / 256 % 256 then 1 else 0 := by
  rw [ltu_materialize_getD 16 i h]
  norm_num

theorem subtable_values_slot_corrected_eq (x y C : ℕ) (hC : 3 ≤ C) :
    GradientBoostInstruction.subtable_values_slot_corrected x y C =
      [if x % 256 < T1 then 1 else 0, if y % 256 < T2 then 1 else 0,
        if y % 256 < T3 then 1 else 0] := by
  have hl := byte_pack_facts (x % 256) (Nat.mod_lt x (by norm_num))
  have hr := byte_pack_facts (y % 256) (Nat.mod_lt y (by norm_num))
  unfold GradientBoostInstruction.subtable_values_slot_corrected
  rw [to_indices_take_three x y C hC]
  simp only [List.map_cons, List.map_nil]
  rw [ltu_entry_65536 _ hl.1.1, ltu_entry_65536 _ hr.2.1.1, ltu_entry_65536 _ hr.2.2.1,
    hl.1.2.1, hl.1.2.2, hr.2.1.2.1, hr.2.1.2.2, hr.2.2.2.1, hr.2.2.2.2]

/-- Supporting analysis for the slot-binding defect: with the three LTU
subtables bound to slots 0, 1 and 2 respectively (instead of the declared
all-to-slot-0 binding), the decomposition-soundness identity holds for every
operand pair, every commutative ring, and every chunk count C of at least the
three populated slots — so the slot declarations are the only obstruction. -/
theorem decomposition_soundness_slot_corrected {F : Type} [CommRing F]
    (x y C : ℕ) (hC : 3 ≤ C) :
    GradientBoostInstruction.combine_lookups
      ((GradientBoostInstruction.subtable_values_slot_corrected x y C).map
        (fun v => (v : F))) C (2 ^ 16) =
      (GradientBoostInstruction.lookup_entry x y : F) := by
  rw [subtable_values_slot_corrected_eq x y C hC]
  unfold GradientBoostInstruction.combine_lookups
    GradientBoostInstruction.lookup_entry inference
  by_cases h1 : x % 256 < T1 <;> by_cases h2 : y % 256 < T2 <;>
    by_cases h3 : y % 256 < T3 <;>
    first
      | (exfalso; simp only [T1, T2, T3] at h1 h2 h3; omega)
      | (simp [h1, h2, h3, V1, V2, V3, V4])

/-- The slot-corrected identity instantiated over the integers at the operand
pair (0, 0) with the VM chunk count C = 4. -/
theorem decomposition_soundness_slot_corrected_witness :
    (3 : ℕ) ≤ 4 ∧
    GradientBoostInstruction.combine_lookups
      ((GradientBoostInstruction.subtable_values_slot_corrected 0 0 4).map
        (fun v => (v : ℤ))) 4 (2 ^ 16) =
      (GradientBoostInstruction.lookup_entry 0 0 : ℤ) :=
  ⟨by norm_num, decomposition_soundness_slot_corrected 0 0 4 (by norm_num)⟩

/-- C1 (failing evaluation): under the slot bindings declared by `subtables()`
— all three LTU subtables bound to slot 0 — every value fed to
`combine_lookups` is the LTU entry at `to_indices[0]` (the left-vs-T1 lookup),
and the decomposition-soundness identity fails at the operand pair (0, 40):
`combine_lookups` yields 10 while `lookup_entry` is 20. -/
theorem decomposition_soundness_violation :
    GradientBoostInstruction.subtable_values_at 0 40 4 = [1, 1, 1] ∧
    GradientBoostInstruction.combine_lookups
      ((GradientBoostInstruction.subtable_values_at 0 40 4).map
        (fun v => (v : ℤ))) 4 (2 ^ 16) = 10 ∧
    GradientBoostInstruction.lookup_entry 0 40 = 20 ∧
    GradientBoostInstruction.combine_lookups
      ((GradientBoostInstruction.subtable_values_at 0 40 4).map
        (fun v => (v : ℤ))) 4 (2 ^ 16) ≠
      ((GradientBoostInstruction.lookup_entry 0 40 : ℕ) : ℤ) := by
  have hidx : (GradientBoostInstruction.to_indices 0 40 4 16).getD 0 0 = 12800 := by
    decide
  have he : (LtuSubtable.materialize (2 ^ 16)).getD 12800 0 = 1 := by
    rw [ltu_entry_65536 12800 (by norm_num)]
    norm_num
  have hval : GradientBoostInstruction.subtable_values_at 0 40 4 = [1, 1, 1] := by
    simp only [GradientBoostInstruction.subtable_values_at,
      GradientBoostInstruction.subtables, List.flatMap_cons, List.flatMap_nil,
      List.map_cons, List.map_nil, List.append_nil, hidx, he]
    rfl
  have hlook : GradientBoostInstruction.lookup_entry 0 40 = 20 := by decide
  refine ⟨hval, ?_, hlook, ?_⟩
  · rw [hval]
    simp [GradientBoostInstruction.combine_lookups, V1, V2, V3, V4]
  · rw [hval, hlook]
    norm_num [GradientBoostInstruction.combine_lookups, V1, V2, V3, V4]

theorem boolPoint_length (F : Type) [Zero F] [One F] (n i : ℕ) :
    (boolPoint F n i).length = n := by
  simp [boolPoint]

theorem binaryIndex_boolPoint {F : Type} [CommRing F] [DecidableEq F]
    [Nontrivial F] :
    ∀ n i : ℕ, i < 2 ^ n → binaryIndex (boolPoint F n i) = i := by
  intro n
  induction n with
  | zero =>
      intro i hi
      interval_cases i
      rfl
  | succ n ih =>
      intro i hi
      have hrw : boolPoint F (n + 1) i =
          (if Nat.testBit i n then (1 : F) else 0) ::
            boolPoint F n (i % 2 ^ n) := by
        unfold boolPoint
        rw [List.range_succ_eq_map]
        simp only [List.map_cons, List.map_map, Nat.add_sub_cancel, Nat.sub_zero]
        refine congrArg (List.cons _) ?_
        apply List.map_congr_left
        intro j hj
        have hjn : j < n := List.mem_range.mp hj
        have e2 : n - 1 - j < n := by omega
        have e1 : n - (j + 1) = n - 1 - j := by omega
        have hbit : (i % 2 ^ n).testBit (n - 1 - j) = i.testBit (n - 1 - j) := by
          rw [Nat.testBit_mod_two_pow]
          simp [e2]
        simp only [Function.comp_apply, e1, hbit]
      rw [hrw]
      simp only [binaryIndex, boolPoint_length]
      rw [ih (i % 2 ^ n) (Nat.mod_lt _ (Nat.two_pow_pos n))]
      have hdm := Nat.div_add_mod i (2 ^ n)
      have hq2 : i / 2 ^ n < 2 :=
        Nat.div_lt_of_lt_mul (by rw [← pow_succ]; exact hi)
      have hmodq : i / 2 ^ n % 2 = i / 2 ^ n := Nat.mod_eq_of_lt hq2
      by_cases hb : Nat.testBit i n
      · have h1 : i / 2 ^ n % 2 = 1 := by
          rw [Nat.testBit_to_div_mod] at hb
          exact of_decide_eq_true hb
        have hq1 : i / 2 ^ n = 1 := by rw [← hmodq]; exact h1
        rw [hq1, mul_one] at hdm
        rw [if_pos hb, if_neg (one_ne_zero (α := F)), one_mul]
        omega
      · have h1 : ¬ i / 2 ^ n % 2 = 1 := by
          rw [Nat.testBit_to_div_mod] at hb
          simpa using hb
        have hq0 : i / 2 ^ n = 0 := by omega
        rw [hq0, mul_zero] at hdm
        rw [if_neg hb, if_pos rfl, zero_mul, zero_add]
        omega

/-- C4: for every power-of-two domain size `M = 2^n` and every index
`i < M`, `evaluate_mle` applied to the canonical boolean encoding of `i`
(most-significant coordinate first, length `n`) equals the field encoding of
`materialize(M)[i]`, over any nontrivial commutative ring. -/
theorem evaluate_mle_materialize_parity {F : Type} [CommRing F] [DecidableEq F]
    [Nontrivial F] (n i : ℕ) (hi : i < 2 ^ n) :
    GradientBoostSubtable.evaluate_mle (boolPoint F n i) =
      ((GradientBoostSubtable.materialize (2 ^ n)).getD i 0 : F) := by
  simp only [GradientBoostSubtable.evaluate_mle, split_bits]
  rw [binaryIndex_boolPoint n i hi, boolPoint_length,
    gradient_boost_materialize_getD n i hi]

/-- C4 witness: the parity instantiated over the integers with n = 4 bits and
index i = 9. -/
theorem evaluate_mle_materialize_parity_witness :
    (9 : ℕ) < 2 ^ 4 ∧
    GradientBoostSubtable.evaluate_mle (boolPoint ℤ 4 9) =
      ((GradientBoostSubtable.materialize (2 ^ 4)).getD 9 0 : ℤ) :=
  ⟨by norm_num, evaluate_mle_materialize_parity 4 9 (by norm_num)⟩

theorem binaryIndex_congr {F : Type} [Zero F] [DecidableEq F] {p q : List F}
    (h : List.Forall₂ (fun a b => (a = 0 ↔ b = 0)) p q) :
    binaryIndex p = binaryIndex q := by
  induction h with
  | nil => rfl
  | cons hab hrest ih =>
      simp only [binaryIndex]
      have hif : ∀ (a b : F), (a = 0 ↔ b = 0) →
          (if a = 0 then (0 : ℕ) else 1) = (if b = 0 then 0 else 1) := by
        intro a b hiff
        by_cases ha : a = 0
        · rw [if_pos ha, if_pos (hiff.mp ha)]
        · rw [if_neg ha, if_neg (fun hb => ha (hiff.mpr hb))]
      rw [hif _ _ hab, ih, hrest.length_eq]

/-- C6: `evaluate_mle` depends only on the zero-pattern of its input point:
if p and q have the same length and p[i] is zero exactly when q[i] is zero,
then `evaluate_mle(p) = evaluate_mle(q)`; every nonzero coordinate counts as
the bit 1 regardless of its field value. -/
theorem evaluate_mle_zero_pattern {F : Type} [CommRing F] [DecidableEq F]
    (p q : List F) (h : List.Forall₂ (fun a b => (a = 0 ↔ b = 0)) p q) :
    GradientBoostSubtable.evaluate_mle p = GradientBoostSubtable.evaluate_mle q := by
  simp only [GradientBoostSubtable.evaluate_mle]
  rw [binaryIndex_congr h, h.length_eq]

/-- C6 witness: the points [2, 0] and [7, 0] over the integers share a
zero-pattern, and their `evaluate_mle` values agree. -/
theorem evaluate_mle_zero_pattern_witness :
    List.Forall₂ (fun a b => (a = 0 ↔ b = 0)) [(2 : ℤ), 0] [(7 : ℤ), 0] ∧
    GradientBoostSubtable.evaluate_mle [(2 : ℤ), 0] =
      GradientBoostSubtable.evaluate_mle [(7 : ℤ), 0] := by
  have h : List.Forall₂ (fun a b => (a = 0 ↔ b = 0)) [(2 : ℤ), 0] [(7 : ℤ), 0] :=
    List.Forall₂.cons (by norm_num) (List.Forall₂.cons (by norm_num) List.Forall₂.nil)
  exact ⟨h, evaluate_mle_zero_pattern _ _ h⟩

open MvPolynomial in
theorem X_eq_monomial_single (s : Fin 3) :
    (X s : MvPolynomial (Fin 3) ℤ) = monomial (Finsupp.single s 1) 1 := by
  rw [← C_mul_X_eq_monomial, C_1, one_mul]

open MvPolynomial in
theorem combineMv_eq_monomials :
    GradientBoostInstruction.combineMv =
      monomial 0 (40 : ℤ) + monomial (Finsupp.single 0 1) (-20 : ℤ)
      + monomial (Finsupp.single 2 1) (-10 : ℤ)
      + monomial (Finsupp.single 0 1 + Finsupp.single 1 1) (-10 : ℤ)
      + monomial (Finsupp.single 0 1 + Finsupp.single 2 1) (10 : ℤ) := by
  have h1 : (monomial (0 : Fin 3 →₀ ℕ) (40 : ℤ)) = C 40 := (C_apply).symm
  have h2 : (monomial (Finsupp.single (0 : Fin 3) 1) (-20 : ℤ)) = C (-20) * X 0 :=
    C_mul_X_eq_monomial.symm
  have h3 : (monomial (Finsupp.single (2 : Fin 3) 1) (-10 : ℤ)) = C (-10) * X 2 :=
    C_mul_X_eq_monomial.symm
  have h4 : (monomial (Finsupp.single (0 : Fin 3) 1 + Finsupp.single 1 1) (-10 : ℤ)) =
      C (-10) * X 0 * X 1 := by
    rw [C_mul_X_eq_monomial, X_eq_monomial_single 1, monomial_mul]
    norm_num
  have h5 : (monomial (Finsupp.single (0 : Fin 3) 1 + Finsupp.single 2 1) (10 : ℤ)) =
      C 10 * X 0 * X 2 := by
    rw [C_mul_X_eq_monomial, X_eq_monomial_single 2, monomial_mul]
    norm_num
  rw [h1, h2, h3, h4, h5]
  simp only [map_neg, map_ofNat]
  unfold GradientBoostInstruction.combineMv
  simp only [V1, V2, V3, V4, Nat.cast_ofNat, map_ofNat]
  ring

open MvPolynomial in
theorem combineMv_totalDegree :
    GradientBoostInstruction.combineMv.totalDegree = 2 := by
  apply le_antisymm
  · have h1m : ∀ s : Fin 3, ((1 : MvPolynomial (Fin 3) ℤ) - X s).totalDegree ≤ 1 := by
      intro s
      refine le_trans (totalDegree_sub _ _) ?_
      rw [totalDegree_X, totalDegree_one]
      norm_num
    have hb1 : (X 0 * X 1 * C ((V1 : ℕ) : ℤ) : MvPolynomial (Fin 3) ℤ).totalDegree ≤ 2 := by
      refine le_trans (totalDegree_mul _ _) ?_
      rw [totalDegree_C, add_zero]
      refine le_trans (totalDegree_mul _ _) ?_
      rw [totalDegree_X, totalDegree_X]
    have hb2 : (X 0 * (1 - X 1) * C ((V2 : ℕ) : ℤ) : MvPolynomial (Fin 3) ℤ).totalDegree ≤ 2 := by
      refine le_trans (totalDegree_mul _ _) ?_
      rw [totalDegree_C, add_zero]
      refine le_trans (totalDegree_mul _ _) ?_
      rw [totalDegree_X]
      have := h1m 1
      omega
    have hb3 : ((1 - X 0) * X 2 * C ((V3 : ℕ) : ℤ) : MvPolynomial (Fin 3) ℤ).totalDegree ≤ 2 := by
      refine le_trans (totalDegree_mul _ _) ?_
      rw [totalDegree_C, add_zero]
      refine le_trans (totalDegree_mul _ _) ?_
      rw [totalDegree_X]
      have := h1m 0
      omega
    have hb4 : ((1 - X 0) * (1 - X 2) * C ((V4 : ℕ) : ℤ) :
        MvPolynomial (Fin 3) ℤ).totalDegree ≤ 2 := by
      refine le_trans (totalDegree_mul _ _) ?_
      rw [totalDegree_C, add_zero]
      refine le_trans (totalDegree_mul _ _) ?_
      have h0 := h1m 0
      have h2 := h1m 2
      omega
    unfold GradientBoostInstruction.combineMv
    refine le_trans (totalDegree_add _ _) (max_le (le_trans (totalDegree_add _ _)
      (max_le (le_trans (totalDegree_add _ _) (max_le hb1 hb2)) hb3)) hb4)
  · have hne1 : (0 : Fin 3 →₀ ℕ) ≠ Finsupp.single 0 1 + Finsupp.single 1 1 := by
      intro h
      have := DFunLike.congr_fun h 0
      simp [Finsupp.add_apply, Finsupp.single_apply] at this
    have hne2 : Finsupp.single (0 : Fin 3) 1 ≠ Finsupp.single 0 1 + Finsupp.single 1 1 := by
      intro h
      have := DFunLike.congr_fun h 1
      simp [Finsupp.add_apply, Finsupp.single_apply] at this
    have hne3 : Finsupp.single (2 : Fin 3) 1 ≠ Finsupp.single 0 1 + Finsupp.single 1 1 := by
      intro h
      have := DFunLike.congr_fun h 0
      simp [Finsupp.add_apply, Finsupp.single_apply] at this
    have hne5 : Finsupp.single (0 : Fin 3) 1 + Finsupp.single 2 1 ≠
        Finsupp.single 0 1 + Finsupp.single 1 1 := by
      intro h
      have := DFunLike.congr_fun h 1
      simp [Finsupp.add_apply, Finsupp.single_apply] at this
    have hcoeff : coeff (Finsupp.single (0 : Fin 3) 1 + Finsupp.single 1 1)
        GradientBoostInstruction.combineMv = -10 := by
      rw [combineMv_eq_monomials]
      simp only [coeff_add, coeff_monomial]
      simp [hne1, hne2, hne3, hne5]
    have hmem : (Finsupp.single (0 : Fin 3) 1 + Finsupp.single 1 1) ∈
        GradientBoostInstruction.combineMv.support := by
      rw [mem_support_iff, hcoeff]
      norm_num
    have hle := le_totalDegree hmem
    have hsum : ((Finsupp.single (0 : Fin 3) 1 + Finsupp.single 1 1).sum fun _ e => e) = 2 := by
      rw [Finsupp.sum_add_index']
      · rw [Finsupp.sum_single_index rfl, Finsupp.sum_single_index rfl]
      · intro i; rfl
      · intro a b₁ b₂; rfl
    omega

/-- C5 counterexample: at the VM chunk count C = 4, `g_poly_degree` returns 3
while the actual maximal total degree of `combine_lookups` as a polynomial in
its three subtable-value inputs is 2, so the declared degree is not exact. -/
theorem g_poly_degree_not_exact :
    GradientBoostInstruction.g_poly_degree 4 = 3 ∧
    GradientBoostInstruction.combineMv.totalDegree = 2 ∧
    GradientBoostInstruction.g_poly_degree 4 ≠
      GradientBoostInstruction.combineMv.totalDegree := by
  refine ⟨rfl, combineMv_totalDegree, ?_⟩
  rw [combineMv_totalDegree]
  norm_num [GradientBoostInstruction.g_poly_degree]

/-- C5 (amended): `g_poly_degree` returns 3 for every C, which over-estimates
by one the actual maximal total degree of `combine_lookups` over its
subtable-value inputs, namely 2; the polynomial `combineMv` whose total degree
is computed agrees with `combine_lookups` on every input triple. -/
theorem g_poly_degree_overestimates_by_one :
    (∀ C : ℕ, GradientBoostInstruction.g_poly_degree C = 3) ∧
    GradientBoostInstruction.combineMv.totalDegree = 2 ∧
    ∀ v : Fin 3 → ℤ, MvPolynomial.eval v GradientBoostInstruction.combineMv =
      GradientBoostInstruction.combine_lookups [v 0, v 1, v 2] 4 (2 ^ 16) := by
  refine ⟨fun C => rfl, combineMv_totalDegree, fun v => ?_⟩
  simp only [GradientBoostInstruction.combineMv, GradientBoostInstruction.combine_lookups,
    V1, V2, V3, V4, map_add, map_mul, map_sub, map_one, MvPolynomial.eval_X, MvPolynomial.eval_C,
    List.getD_cons_zero, List.getD_cons_succ, Nat.cast_ofNat]

set_option maxRecDepth 4000 in
theorem byte_pack_lt_two_pow_15 :
    ∀ l, l < 256 → (l ||| (T1 <<< 8)) < 2 ^ 15 ∧ (l ||| (T2 <<< 8)) < 2 ^ 15 ∧
      (l ||| (T3 <<< 8)) < 2 ^ 15 := by decide

/-- C7 counterexample: at log_M = 14 (M = 16384) the third index produced by
`to_indices` for the operand pair (0, 0) is 17920, which is not below M:
`to_indices` ignores its `log_M` argument, so the range invariant fails for
small domains. -/
theorem to_indices_range_counterexample :
    (GradientBoostInstruction.to_indices 0 0 3 14).length = 3 ∧
    (GradientBoostInstruction.to_indices 0 0 3 14).getD 2 0 = 17920 ∧
    ¬ (GradientBoostInstruction.to_indices 0 0 3 14).getD 2 0 < 2 ^ 14 := by
  decide

/-- C7 (amended): `to_indices` always returns exactly C indices, and every
returned index lies in [0, 2^log_M) whenever log_M is at least 15 (in
particular for the VM configuration log_M = 16); each packed index is below
2^15 by construction. -/
theorem to_indices_length_and_range (x y C log_M : ℕ) :
    (GradientBoostInstruction.to_indices x y C log_M).length = C ∧
    (15 ≤ log_M → ∀ i ∈ GradientBoostInstruction.to_indices x y C log_M,
      i < 2 ^ log_M) := by
  constructor
  · simp only [GradientBoostInstruction.to_indices, List.length_append,
      List.length_take, List.length_replicate, List.length_cons, List.length_nil]
    omega
  · intro hlog i hi
    have h15 : (2 : ℕ) ^ 15 ≤ 2 ^ log_M := Nat.pow_le_pow_right (by norm_num) hlog
    have hx := byte_pack_lt_two_pow_15 (x % 256) (Nat.mod_lt x (by norm_num))
    have hy := byte_pack_lt_two_pow_15 (y % 256) (Nat.mod_lt y (by norm_num))
    simp only [GradientBoostInstruction.to_indices, List.mem_append] at hi
    rcases hi with hi | hi
    · have hmem := List.mem_of_mem_take hi
      simp only [List.mem_cons, List.not_mem_nil, or_false] at hmem
      rcases hmem with rfl | rfl | rfl
      · exact lt_of_lt_of_le hx.1 h15
      · exact lt_of_lt_of_le hy.2.1 h15
      · exact lt_of_lt_of_le hy.2.2 h15
    · rw [List.eq_of_mem_replicate hi]
      exact lt_of_lt_of_le (by norm_num) h15

/-- C7 witness: the amended length/range invariant instantiated at the operand
pair (1, 2) with the VM configuration C = 4, log_M = 16. -/
theorem to_indices_length_and_range_witness :
    (GradientBoostInstruction.to_indices 1 2 4 16).length = 4 ∧
    ∀ i ∈ GradientBoostInstruction.to_indices 1 2 4 16, i < 2 ^ 16 :=
  ⟨(to_indices_length_and_range 1 2 4 16).1,
    (to_indices_length_and_range 1 2 4 16).2 (by norm_num)⟩
